import Mathlib

/-!
Shallow embedding of the go-4devs/workflow state-transition engine
(src/workflow.go) and verification of the specification's claims.

Modelling conventions:
* Go interface values (`Data`, the `fmt.Stringer` state/transit keys) are
  abstract type parameters `D`, `S`, `T`; the `GetState()` capability is a
  function `getState : D → S` passed where the source calls it.
* A Go `(Data, error)` result pair is `Option D × Option (WErr E)`; `none`
  in either slot is Go's `nil`.  The two sentinel errors of the package are
  the constructors `WErr.transitNotAllowed` and `WErr.duplicateTransit`;
  user-produced errors are `WErr.user e`.
* A nilable function-typed struct field (`Transition.Middleware`) is an
  `Option` of the function type; function values themselves are total Lean
  functions.
* The registry map `map[fmt.Stringer]*Transition` is a function
  `T → Option Transition`; `Workflow.Add` returns the error together with
  the updated workflow (Go mutates in place).
* The mutable cursor `curI` in `chainProcess` is encoded by fuel:
  `chainHandler` at fuel `f` is the Go closure observed when the shared
  cursor holds `curI = lastI - f`; Go increments before and decrements
  after each recursive call, so the cursor always equals that depth.
-/

namespace workflow

/-- Errors: the two package sentinels plus arbitrary user errors
(Go `error` is an open interface). -/
inductive WErr (E : Type) : Type where
  | transitNotAllowed : WErr E
  | duplicateTransit : WErr E
  | user (e : E) : WErr E
deriving DecidableEq, Repr

/-- A Go `(Data, error)` pair: `none` is Go's `nil`. -/
abbrev Res (D E : Type) : Type := Option D × Option (WErr E)

/-- Go: `type Process func(ctx context.Context, data Data) (Data, error)`. -/
abbrev Process (Ctx D E : Type) : Type := Ctx → D → Res D E

/-- Go: `type Middleware func(ctx context.Context, data Data, next Process) (Data, error)`. -/
abbrev Middleware (Ctx D E : Type) : Type := Ctx → D → Process Ctx D E → Res D E

variable {Ctx T S D E : Type}

/-- Stand-in for a Go nil `Middleware` function value; it is the `getD`
default for list indexing and for the nilable `Transition.Middleware`
field, and is never reached by the engine on registered transitions. -/
def nilMiddleware : Middleware Ctx D E := fun _ _ _ => (none, none)

/-- Go: `type Transition struct { Src []fmt.Stringer; Dst fmt.Stringer; Middleware Middleware }`.
The function-typed field is nilable in Go, hence `Option` here (zero value `none`). -/
structure Transition (Ctx S D E : Type) : Type where
  Src : List S
  Dst : S
  Middleware : Option (workflow.Middleware Ctx D E) := none

/-- Go: `func (tr *Transition) Can(data Data) bool` — true when `Src` is
empty, otherwise true iff `data.GetState()` equals some element of `Src`. -/
def Transition.Can [DecidableEq S] (tr : Transition Ctx S D E) (getState : D → S)
    (data : D) : Bool :=
  if tr.Src.length = 0 then true
  else tr.Src.any fun src => decide (getState data = src)

/-- Go: `type Apply func(ctx context.Context, data Data, dst fmt.Stringer) (Data, error)`. -/
abbrev Apply (Ctx S D E : Type) : Type := Ctx → D → S → Res D E

/-- The inner closure of Go `chainProcess` for `n > 1`, with the shared
mutable `curI` encoded as fuel (`fuel = lastI - curI`).  At fuel `0`
(`curI == lastI`) the source executes `return next(currentCtx, data)` —
note: the closure-captured outer `data`, not `currentData`. -/
def chainHandler (handleFunc : List (Middleware Ctx D E)) (next : Process Ctx D E)
    (data : D) : Nat → Process Ctx D E
  | 0 => fun currentCtx _currentData => next currentCtx data
  | k + 1 => fun currentCtx currentData =>
      handleFunc.getD (handleFunc.length - 1 - k) nilMiddleware currentCtx currentData
        (chainHandler handleFunc next data k)

/-- Go: `func chainProcess(handleFunc ...Middleware) Middleware` — the
three cases `n > 1`, `n == 1`, `n == 0` of the source. -/
def chainProcess (handleFunc : List (Middleware Ctx D E)) : Middleware Ctx D E :=
  if 1 < handleFunc.length then
    fun ctx data next =>
      handleFunc.getD 0 nilMiddleware ctx data
        (chainHandler handleFunc next data (handleFunc.length - 1))
  else if handleFunc.length = 1 then
    handleFunc.getD 0 nilMiddleware
  else
    fun ctx data next => next ctx data

/-- Go: `type Workflow struct { transitions map[fmt.Stringer]*Transition; apply Apply; mw Middleware; mu sync.Mutex }`.
The mutex only serialises `Add` calls and has no sequential content. -/
structure Workflow (Ctx T S D E : Type) : Type where
  transitions : T → Option (Transition Ctx S D E)
  apply : Apply Ctx S D E
  mw : Middleware Ctx D E

/-- Go: `func NewWorkflow(apply Apply, mw ...Middleware) *Workflow`. -/
def NewWorkflow (apply : Apply Ctx S D E) (mw : List (Middleware Ctx D E)) :
    Workflow Ctx T S D E :=
  { transitions := fun _ => none
    apply := apply
    mw := chainProcess mw }

/-- Go: `func (w *Workflow) Get(data Data, transit fmt.Stringer) *Transition`. -/
def Workflow.Get [DecidableEq S] (w : Workflow Ctx T S D E) (getState : D → S)
    (data : D) (transit : T) : Option (Transition Ctx S D E) :=
  match w.transitions transit with
  | none => none
  | some tr => if tr.Can getState data then some tr else none

/-- Go: `func (w *Workflow) Add(name fmt.Stringer, transit *Transition, mw ...Middleware) error`.
Returns the error together with the updated workflow (Go mutates `w`). -/
def Workflow.Add [DecidableEq T] (w : Workflow Ctx T S D E) (name : T)
    (transit : Transition Ctx S D E) (mw : List (Middleware Ctx D E)) :
    Option (WErr E) × Workflow Ctx T S D E :=
  match w.transitions name with
  | some _ => (some WErr.duplicateTransit, w)
  | none =>
      let mw2 : List (Middleware Ctx D E) :=
        match transit.Middleware with
        | some m => mw ++ [m]
        | none => mw
      (none,
        { w with
          transitions := fun t =>
            if t = name then some { transit with Middleware := some (chainProcess mw2) }
            else w.transitions t })

/-- Go: `func (w *Workflow) Can(data Data, transit fmt.Stringer) bool`. -/
def Workflow.Can [DecidableEq S] (w : Workflow Ctx T S D E) (getState : D → S)
    (data : D) (transit : T) : Bool :=
  (w.Get getState data transit).isSome

/-- Go: `func (w *Workflow) Apply(ctx context.Context, data Data, transit fmt.Stringer) (Data, error)`. -/
def Workflow.Apply [DecidableEq S] (w : Workflow Ctx T S D E) (getState : D → S)
    (ctx : Ctx) (data : D) (transit : T) : Res D E :=
  w.mw ctx data fun ctx data =>
    match w.Get getState data transit with
    | some tr =>
        tr.Middleware.getD nilMiddleware ctx data fun ctx data => w.apply ctx data tr.Dst
    | none => (none, some WErr.transitNotAllowed)

/-- Concrete middleware for exercising the composed chain: passes its
inputs through to the continuation unchanged. -/
def c1mPass : Middleware Unit Nat Unit := fun ctx data next => next ctx data

/-- Concrete middleware: invokes its continuation with the data
incremented — the terminal should therefore observe the incremented value. -/
def c1mInc : Middleware Unit Nat Unit := fun ctx data next => next ctx (data + 1)

/-- Concrete terminal: returns the data it receives, so the chain's result
reveals which data value reached the terminal. -/
def c1term : Process Unit Nat Unit := fun _ data => (some data, none)

/-- C1 (code bug): in a two-middleware chain whose last middleware invokes
its continuation with `6` (input data `5`), the composed chain returns
`(some 5, none)`: the terminal received the chain's original input `5`,
not the `6` the last middleware passed — `chainHandler`'s final step in the
source executes `next(currentCtx, data)` with the closure-captured outer
`data` instead of `currentData`. -/
theorem c1_terminal_data_bug :
    chainProcess [c1mPass, c1mInc] () 5 c1term = (some 5, none)
    ∧ c1term () 6 = (some 6, none)
    ∧ ((some 5, none) : Res Nat Unit) ≠ (some 6, none) :=
  ⟨rfl, rfl, by decide⟩

/-- C4: `Transition.Can` returns true iff `Src` is empty or the entity's
current state equals (by value) some element of `Src`; in particular it is
unconditionally true for empty `Src`.  The embedding is a pure function,
so freedom from side effects is inherent. -/
theorem c4_transition_can [DecidableEq S] (tr : Transition Ctx S D E)
    (getState : D → S) (data : D) :
    tr.Can getState data = true ↔
      (tr.Src = [] ∨ ∃ src ∈ tr.Src, getState data = src) := by
  unfold Transition.Can
  rcases h : tr.Src with _ | ⟨a, l⟩
  · simp
  · simp [List.any_eq_true]

/-- C7: `Workflow.Get` returns `none` in exactly two cases — the name is
unregistered, or the registered transition's guard rejects the current
state — both collapsing to the same `none` result; and `Workflow.Can` is
true iff `Get` returns a transition. -/
theorem c7_get_cases [DecidableEq S] (w : Workflow Ctx T S D E)
    (getState : D → S) (data : D) (name : T) :
    (w.Get getState data name = none ↔
      (w.transitions name = none ∨
        ∃ tr, w.transitions name = some tr ∧ tr.Can getState data = false))
    ∧ (w.Can getState data name = true ↔
        ∃ tr, w.Get getState data name = some tr) := by
  constructor
  · unfold Workflow.Get
    cases h : w.transitions name with
    | none => simp [h]
    | some tr =>
      simp only [h]
      by_cases hc : tr.Can getState data = true
      · simp [hc]
      · simp only [Bool.not_eq_true] at hc
        simp [hc]
  · unfold Workflow.Can
    cases h : w.Get getState data name with
    | none => simp [h]
    | some tr => simp [h]

/-- C8: composing the empty middleware list yields the identity
pass-through — the composed function invokes the terminal directly with
the given context and data and returns exactly its result. -/
theorem c8_empty_chain (ctx : Ctx) (data : D) (next : Process Ctx D E) :
    chainProcess ([] : List (Middleware Ctx D E)) ctx data next = next ctx data := rfl

/-- C9: composing a single middleware returns that middleware itself — no
wrapper is introduced — hence both agree on every input. -/
theorem c9_single_chain (m : Middleware Ctx D E) :
    chainProcess [m] = m ∧
      ∀ (ctx : Ctx) (data : D) (next : Process Ctx D E),
        chainProcess [m] ctx data next = m ctx data next :=
  ⟨rfl, fun _ _ _ => rfl⟩

/-! Scenario B (C2).  Mirroring the repository's test
`TestWorkflow_Apply_Middleware`: the recorder there is an external
mutable slice, a side effect; in this pure embedding each recording
middleware appends its name to the context (which the source chain
threads faithfully through `currentCtx`), and the terminal apply stores
the context log into the produced data, so the invocation order is
observable in `Apply`'s result. -/

/-- Entity of Scenario B: the accumulated invocation log together with the
current state (`none` is the fresh entity's unset state). -/
abbrev C2Data : Type := List String × Option String

/-- `GetState()` of the Scenario B entity. -/
def c2getState : C2Data → Option String := fun d => d.2

/-- Terminal apply of Scenario B: writes the destination state (and the
context log) into the entity, as the test's apply function sets
`d.state = dst`. -/
def c2apply : Apply (List String) (Option String) C2Data Unit :=
  fun ctx _data dst => (some (ctx, dst), none)

/-- A recording middleware of Scenario B: logs its name, then invokes its
continuation. -/
def c2record (name : String) : Middleware (List String) C2Data Unit :=
  fun ctx data next => next (ctx ++ [name]) data

/-- Scenario B registration 1: transit toNew, no Src, extra middleware M1. -/
def c2add1 : Option (WErr Unit) × Workflow (List String) String (Option String) C2Data Unit :=
  (NewWorkflow c2apply []).Add "toNew" { Src := [], Dst := some "new" } [c2record "new"]

/-- Scenario B registration 2: transit toDone, Src new, attached middleware M2. -/
def c2add2 : Option (WErr Unit) × Workflow (List String) String (Option String) C2Data Unit :=
  c2add1.2.Add "toDone"
    { Src := [some "new"], Dst := some "done", Middleware := some (c2record "done") } []

/-- Scenario B registration 3: transit toCancel, Src new or done, attached
middleware M3 plus extras M4, M5, M6 at Add time. -/
def c2add3 : Option (WErr Unit) × Workflow (List String) String (Option String) C2Data Unit :=
  c2add2.2.Add "toCancel"
    { Src := [some "new", some "done"], Dst := some "cancel",
      Middleware := some (c2record "cancel") }
    [c2record "cancel add 1", c2record "cancel add 2", c2record "cancel add 3"]

/-- The fully registered Scenario B workflow. -/
def c2w : Workflow (List String) String (Option String) C2Data Unit := c2add3.2

/-- C2: all three registrations succeed, and applying toNew, toDone,
toCancel in sequence on a fresh entity records exactly
["new", "done", "cancel add 1", "cancel add 2", "cancel add 3", "cancel"]
— extra Add-time middleware in call order, the attached middleware last —
with final state "cancel". -/
theorem c2_scenarioB :
    (c2add1.1 = none ∧ c2add2.1 = none ∧ c2add3.1 = none)
    ∧ c2w.Apply c2getState [] ([], none) "toNew" = (some (["new"], some "new"), none)
    ∧ c2w.Apply c2getState ["new"] (["new"], some "new") "toDone"
        = (some (["new", "done"], some "done"), none)
    ∧ c2w.Apply c2getState ["new", "done"] (["new", "done"], some "done") "toCancel"
        = (some (["new", "done", "cancel add 1", "cancel add 2", "cancel add 3", "cancel"],
            some "cancel"), none) :=
  ⟨⟨rfl, rfl, rfl⟩, rfl, rfl, rfl⟩

/-- A global middleware that returns its data without invoking the
continuation — it swallows the lookup step entirely. -/
def c5swallow : Middleware Unit Nat Unit := fun _ data _ => (some data, none)

/-- A trivial terminal apply for the concrete workflows below. -/
def c5apply : Apply Unit String Nat Unit := fun _ data _ => (some data, none)

/-- `GetState()` of the concrete Nat entities below. -/
def c5getState : Nat → String := fun _ => ""

/-- C5 counterexample: a workflow with global middleware `c5swallow` and an
empty registry — `Apply` on the unregistered name "missing" returns
`(some 5, none)`, not `(nil, TransitNotAllowed)`: the global chain runs
before the lookup and may short-circuit or override, so the claim fails
for workflows with a non-identity global chain. -/
theorem c5_counterexample :
    (NewWorkflow (T := String) c5apply [c5swallow]).transitions "missing" = none
    ∧ Workflow.Apply (NewWorkflow c5apply [c5swallow]) c5getState () 5 "missing"
        = (some 5, none)
    ∧ ((some 5, none) : Res Nat Unit) ≠ ((none : Option Nat), some WErr.transitNotAllowed) :=
  ⟨rfl, rfl, by decide⟩

/-- C5 (amended): for any workflow with no transition registered under
`name`, `Can` is false; and when the workflow's global middleware chain is
the identity pass-through (as when constructed with no global middleware),
`Apply` returns `(nil, TransitNotAllowed)` — for every terminal apply
function and with no transition middleware in existence, hence none
invoked. -/
theorem c5_unregistered [DecidableEq S] (w : Workflow Ctx T S D E)
    (getState : D → S) (name : T) (hname : w.transitions name = none) :
    (∀ data, w.Can getState data name = false)
    ∧ (w.mw = chainProcess [] →
        ∀ ctx data, w.Apply getState ctx data name = (none, some WErr.transitNotAllowed)) := by
  have hget : ∀ data, w.Get getState data name = none := by
    intro data
    unfold Workflow.Get
    rw [hname]
  constructor
  · intro data
    unfold Workflow.Can
    rw [hget]
    rfl
  · intro hmw ctx data
    have h1 : w.Apply getState ctx data name
        = match w.Get getState data name with
          | some tr =>
              tr.Middleware.getD nilMiddleware ctx data fun c d => w.apply c d tr.Dst
          | none => (none, some WErr.transitNotAllowed) := by
      unfold Workflow.Apply
      rw [hmw]
      rfl
    rw [h1, hget data]

/-- Witness for C5 (amended): concrete empty workflow, unregistered name. -/
theorem c5_unregistered_witness :
    Workflow.Can (NewWorkflow (T := String) c5apply []) c5getState 5 "missing" = false
    ∧ Workflow.Apply (NewWorkflow (T := String) c5apply []) c5getState () 5 "missing"
        = (none, some WErr.transitNotAllowed) :=
  ⟨(c5_unregistered (NewWorkflow c5apply []) c5getState "missing" rfl).1 5,
   (c5_unregistered (NewWorkflow c5apply []) c5getState "missing" rfl).2 rfl () 5⟩

/-- C6: adding under an already-registered name returns `DuplicateTransit`
and leaves the workflow — in particular the stored transition with its
destination and composed middleware chain — unchanged. -/
theorem c6_duplicate_add [DecidableEq T] (w : Workflow Ctx T S D E) (name : T)
    (stored tr : Transition Ctx S D E) (mws : List (Middleware Ctx D E))
    (h : w.transitions name = some stored) :
    w.Add name tr mws = (some WErr.duplicateTransit, w)
    ∧ (w.Add name tr mws).2.transitions name = some stored := by
  have h1 : w.Add name tr mws = (some WErr.duplicateTransit, w) := by
    unfold Workflow.Add
    rw [h]
  refine ⟨h1, ?_⟩
  rw [h1]
  exact h

/-- First registration of the C6/C10 witnesses. -/
def c6tr : Transition Unit String Nat Unit := { Src := [], Dst := "new" }

/-- The workflow holding that first registration. -/
def c6w : Workflow Unit String String Nat Unit :=
  ((NewWorkflow c5apply []).Add "toNew" c6tr []).2

/-- What the first registration stores: its middleware chain is the
composed (here: empty) chain. -/
def c6stored : Transition Unit String Nat Unit :=
  { Src := [], Dst := "new", Middleware := some (chainProcess []) }

/-- Witness for C6: a second `Add` under "toNew" fails with
`DuplicateTransit` and the stored transition keeps destination "new" and
its composed chain. -/
theorem c6_duplicate_add_witness :
    c6w.Add "toNew" { Src := [], Dst := "done" } [] = (some WErr.duplicateTransit, c6w)
    ∧ (c6w.Add "toNew" { Src := [], Dst := "done" } []).2.transitions "toNew"
        = some c6stored :=
  c6_duplicate_add c6w "toNew" c6stored { Src := [], Dst := "done" } [] rfl

/-- C10: a successful `Add` always stores a transition whose `Middleware`
field is `some` composed chain — the empty chain when no extra and no
attached middleware was given — so `Apply` never calls a nil middleware on
a registered transition; and `NewWorkflow` with no global middleware sets
the global chain to the (non-nil) identity pass-through. -/
theorem c10_middleware_nonnil [DecidableEq T] (w : Workflow Ctx T S D E) (name : T)
    (tr : Transition Ctx S D E) (mws : List (Middleware Ctx D E))
    (h : (w.Add name tr mws).1 = none) :
    (∃ ms : List (Middleware Ctx D E),
        (w.Add name tr mws).2.transitions name
          = some { Src := tr.Src, Dst := tr.Dst, Middleware := some (chainProcess ms) }
        ∧ (tr.Middleware = none → mws = [] → ms = []))
    ∧ ∀ (ap : Apply Ctx S D E),
        (NewWorkflow (T := T) ap []).mw = fun ctx data next => next ctx data := by
  constructor
  · cases hw : w.transitions name with
    | some tr0 =>
        exfalso
        unfold Workflow.Add at h
        rw [hw] at h
        simp at h
    | none =>
        refine ⟨(match tr.Middleware with | some m => mws ++ [m] | none => mws), ?_, ?_⟩
        · unfold Workflow.Add
          rw [hw]
          simp
        · intro h1 h2
          rw [h1, h2]
  · intro ap
    rfl

/-- Witness for C10: registering `c6tr` (no attached middleware, no
extras) stores `Middleware = some (chainProcess [])`. -/
theorem c10_middleware_nonnil_witness :
    ((NewWorkflow (T := String) c5apply []).Add "toNew" c6tr []).2.transitions "toNew"
      = some { Src := ([] : List String), Dst := "new",
               Middleware := some (chainProcess ([] : List (Middleware Unit Nat Unit))) } := by
  obtain ⟨⟨ms, hm, hms⟩, -⟩ :=
    c10_middleware_nonnil (NewWorkflow c5apply []) "toNew" c6tr [] rfl
  rw [hms rfl rfl] at hm
  exact hm

/-! Short-circuiting in the composed chain (C3).  A middleware "returns
without invoking its continuation" when it is pointwise a function `g` of
context and data alone.  The helper lemmas walk `chainHandler` down the
list, mirroring the cursor of the source. -/

/-- Unfolding of `chainHandler` at positive fuel. -/
lemma chainHandler_succ (hf : List (Middleware Ctx D E)) (next : Process Ctx D E)
    (d0 : D) (k : Nat) (cctx : Ctx) (cdata : D) :
    chainHandler hf next d0 (k + 1) cctx cdata
      = hf.getD (hf.length - 1 - k) nilMiddleware cctx cdata
          (chainHandler hf next d0 k) := rfl

/-- Unfolding of `chainProcess` in the source's `n > 1` case. -/
lemma chainProcess_gt_one (ms : List (Middleware Ctx D E)) (h : 1 < ms.length)
    (ctx : Ctx) (data : D) (next : Process Ctx D E) :
    chainProcess ms ctx data next
      = ms.getD 0 nilMiddleware ctx data (chainHandler ms next data (ms.length - 1)) := by
  unfold chainProcess
  rw [if_pos h]

/-- Unfolding of `chainProcess` in the source's `n == 1` case. -/
lemma chainProcess_eq_one (ms : List (Middleware Ctx D E)) (h : ms.length = 1) :
    chainProcess ms = ms.getD 0 nilMiddleware := by
  unfold chainProcess
  rw [if_neg (by omega), if_pos h]

/-- If every middleware strictly before position `i` passes its inputs
through to its continuation and the one at `i` ignores its continuation
(returning `g`), then entering the chain at any position `j ≤ i` yields
exactly `g` of the inputs. -/
lemma chainHandler_prefix_pass (ms : List (Middleware Ctx D E)) (next : Process Ctx D E)
    (d0 : D) (i : Nat) (g : Ctx → D → Res D E) (hi : i < ms.length)
    (hg : ∀ ctx data k, ms.getD i nilMiddleware ctx data k = g ctx data)
    (hpass : ∀ j, j < i → ∀ ctx data k, ms.getD j nilMiddleware ctx data k = k ctx data) :
    ∀ m j, i - j = m → j ≤ i → ∀ ctx data,
      ms.getD j nilMiddleware ctx data (chainHandler ms next d0 (ms.length - 1 - j))
        = g ctx data := by
  intro m
  induction m with
  | zero =>
      intro j hm hj ctx data
      have hji : j = i := by omega
      subst hji
      exact hg ctx data _
  | succ m ih =>
      intro j hm hj ctx data
      have hjlt : j < i := by omega
      rw [hpass j hjlt]
      have hfuel : ms.length - 1 - j = (ms.length - 1 - (j + 1)) + 1 := by omega
      rw [hfuel, chainHandler_succ]
      have hidx : ms.length - 1 - (ms.length - 1 - (j + 1)) = j + 1 := by omega
      rw [hidx]
      exact ih (j + 1) (by omega) (by omega) ctx data

/-- With an identity-pass-through prefix before the short-circuiting
middleware at position `i`, the whole composed chain returns exactly
`g ctx data`. -/
lemma chainProcess_shortcircuit_result (ms : List (Middleware Ctx D E)) (i : Nat)
    (g : Ctx → D → Res D E) (hi : i < ms.length)
    (hg : ∀ ctx data k, ms.getD i nilMiddleware ctx data k = g ctx data)
    (hpass : ∀ j, j < i → ∀ ctx data k, ms.getD j nilMiddleware ctx data k = k ctx data) :
    ∀ ctx data next, chainProcess ms ctx data next = g ctx data := by
  intro ctx data next
  rcases Nat.lt_or_ge 1 ms.length with h2 | h1
  · rw [chainProcess_gt_one ms h2]
    exact chainHandler_prefix_pass ms next data i g hi hg hpass i 0 (by omega)
      (by omega) ctx data
  · have hlen : ms.length = 1 := by omega
    have hi0 : i = 0 := by omega
    rw [chainProcess_eq_one ms hlen]
    subst hi0
    exact hg ctx data next

/-- Below the short-circuiting position nothing is observable: two chains
of equal length agreeing up to position `i` have extensionally equal
handlers at every fuel that only reaches positions `≤ i`. -/
lemma chainHandler_agree (ms ms2 : List (Middleware Ctx D E)) (next next2 : Process Ctx D E)
    (d0 : D) (i : Nat) (g : Ctx → D → Res D E)
    (hi : i < ms.length) (hlen : ms2.length = ms.length)
    (hg : ∀ ctx data k, ms.getD i nilMiddleware ctx data k = g ctx data)
    (hagree : ∀ j, j ≤ i → ms2.getD j nilMiddleware = ms.getD j nilMiddleware) :
    ∀ f, ms.length - 1 - i < f → ∀ cctx cdata,
      chainHandler ms next d0 f cctx cdata = chainHandler ms2 next2 d0 f cctx cdata := by
  intro f
  induction f with
  | zero =>
      intro hf
      exact absurd hf (Nat.not_lt_zero _)
  | succ k ih =>
      intro hf cctx cdata
      rw [chainHandler_succ, chainHandler_succ, hlen]
      have hidx_le : ms.length - 1 - k ≤ i := by omega
      rcases Nat.eq_or_lt_of_le hidx_le with heq | hlt
      · rw [heq, hagree i (Nat.le_refl i), hg, hg]
      · have hk : ms.length - 1 - i < k := by omega
        have hch : chainHandler ms next d0 k = chainHandler ms2 next2 d0 k := by
          funext c2 d2
          exact ih hk c2 d2
        rw [hagree _ (Nat.le_of_lt hlt), hch]

/-- Replacing everything after a short-circuiting middleware — the later
middleware and the terminal — never changes the composed result. -/
lemma chainProcess_shortcircuit_agree (ms ms2 : List (Middleware Ctx D E)) (i : Nat)
    (g : Ctx → D → Res D E) (hi : i < ms.length) (hlen : ms2.length = ms.length)
    (hg : ∀ ctx data k, ms.getD i nilMiddleware ctx data k = g ctx data)
    (hagree : ∀ j, j ≤ i → ms2.getD j nilMiddleware = ms.getD j nilMiddleware) :
    ∀ ctx data next next2,
      chainProcess ms ctx data next = chainProcess ms2 ctx data next2 := by
  intro ctx data next next2
  rcases Nat.lt_or_ge 1 ms.length with h2 | h1
  · rw [chainProcess_gt_one ms h2 ctx data next,
      chainProcess_gt_one ms2 (by omega) ctx data next2, hlen]
    rcases Nat.eq_zero_or_pos i with hi0 | hipos
    · subst hi0
      rw [hagree 0 (Nat.le_refl 0), hg, hg]
    · have hch : chainHandler ms next data (ms.length - 1)
          = chainHandler ms2 next2 data (ms.length - 1) := by
        funext c2 d2
        exact chainHandler_agree ms ms2 next next2 data i g hi hlen hg hagree
          (ms.length - 1) (by omega) c2 d2
      rw [hagree 0 (by omega), hch]
  · have hlen1 : ms.length = 1 := by omega
    have hi0 : i = 0 := by omega
    rw [chainProcess_eq_one ms hlen1, chainProcess_eq_one ms2 (by omega)]
    subst hi0
    rw [hagree 0 (Nat.le_refl 0), hg, hg]

/-- C3 (amended): if the middleware at position `i` returns without
invoking its continuation (it is pointwise a function `g` of context and
data alone), then (1) the composed result never depends on any middleware
after position `i` nor on the terminal — replacing them arbitrarily leaves
the result unchanged — and (2) if additionally every middleware before
position `i` invokes its continuation with its inputs unchanged and
returns its result, the pair returned by the short-circuiting middleware
is the result of the whole composed chain.  (Unconditionally equating the
chain's result with the middleware's pair fails: an earlier middleware may
override the result it receives — see the counterexample.) -/
theorem c3_short_circuit (ms : List (Middleware Ctx D E)) (i : Nat)
    (g : Ctx → D → Res D E) (hi : i < ms.length)
    (hg : ∀ ctx data k, ms.getD i nilMiddleware ctx data k = g ctx data) :
    (∀ ms2 : List (Middleware Ctx D E), ms2.length = ms.length →
      (∀ j, j ≤ i → ms2.getD j nilMiddleware = ms.getD j nilMiddleware) →
      ∀ ctx data next next2,
        chainProcess ms ctx data next = chainProcess ms2 ctx data next2)
    ∧ ((∀ j, j < i → ∀ ctx data k, ms.getD j nilMiddleware ctx data k = k ctx data) →
      ∀ ctx data next, chainProcess ms ctx data next = g ctx data) :=
  ⟨fun ms2 hlen hagree => chainProcess_shortcircuit_agree ms ms2 i g hi hlen hg hagree,
   fun hpass => chainProcess_shortcircuit_result ms i g hi hg hpass⟩

/-- A middleware that invokes its continuation and then overrides the
error slot of the result it receives. -/
def c3mOuter : Middleware Unit Nat Unit := fun ctx data next =>
  ((next ctx data).1, some (WErr.user ()))

/-- A middleware that returns without invoking its continuation. -/
def c3mShort : Middleware Unit Nat Unit := fun _ data _ => (some (data + 37), none)

/-- C3 counterexample: in the chain [c3mOuter, c3mShort] on input 5, the
short-circuiting middleware returns (some 42, none), but the whole
composed chain returns (some 42, some user-error): the enclosing
middleware overrides the pair, so the short-circuiting middleware's pair
is not, in general, the result of the whole composed chain. -/
theorem c3_counterexample :
    chainProcess [c3mOuter, c3mShort] () 5 (fun _ d => (some d, none))
        = (some 42, some (WErr.user ()))
    ∧ c3mShort () 5 (fun _ d => (some d, none)) = (some 42, none)
    ∧ ((some 42, some (WErr.user ())) : Res Nat Unit) ≠ (some 42, none) :=
  ⟨rfl, rfl, by decide⟩

/-- Pass-through middleware for the C3 witness. -/
def c3mPass : Middleware Unit Nat Unit := fun ctx data next => next ctx data

/-- Constant short-circuiting middleware for the C3 witness. -/
def c3mSeven : Middleware Unit Nat Unit := fun _ _ _ => (some 7, none)

/-- Witness for C3 (amended): pass-through before a short-circuiting
middleware — the chain returns exactly the short-circuit pair. -/
theorem c3_short_circuit_witness :
    chainProcess [c3mPass, c3mSeven] () 0 (fun _ d => (some d, none)) = (some 7, none) := by
  have h := (c3_short_circuit [c3mPass, c3mSeven] 1
    (fun _ _ => ((some 7 : Option Nat), (none : Option (WErr Unit))))
    (by decide) (fun _ _ _ => rfl)).2
  refine h ?_ () 0 (fun _ d => (some d, none))
  intro j hj ctx data k
  cases j with
  | zero => rfl
  | succ n => exact absurd hj (by omega)

end workflow
